import Mathlib

/-!
Shallow embedding of the terminal contact form
(`src/src/components/contact-form.tsx`).

The component owns two pieces of React state:
a `FormState` record (`step`, `name`, `email`, `description`) and the
boolean `isSubmitted`.  The handlers `handleNextStep`, `handleRestart`
and `handleSend` mutate them.  User events only reach a handler through
the rendered controls, so the render guards of the JSX (which input is
rendered at which step, when the Restart / Send buttons exist) are part
of the embedding: a user-level event is the render guard composed with
the handler.  The `useEffect` keyed on `form.step` is modelled as the
list of side effects it emits per dependency change.
-/

/-- `const FIRST_STEP = 1`. -/
def FIRST_STEP : Nat := 1

/-- `const LAST_STEP = 4`. -/
def LAST_STEP : Nat := 4

/-- `interface FormState { step; name; email; description }`. -/
structure FormState where
  step : Nat
  name : String
  email : String
  description : String
deriving DecidableEq, Repr

/-- The component's two `useState` cells, taken together. -/
structure AppState where
  form : FormState
  isSubmitted : Bool
deriving DecidableEq, Repr

/-- The `useState` initialiser: `{ step: FIRST_STEP, name: "", email: "", description: "" }`. -/
def initialForm : FormState :=
  { step := FIRST_STEP, name := "", email := "", description := "" }

/-- Initial component state on mount: initial form, `isSubmitted = false`. -/
def initState : AppState := { form := initialForm, isSubmitted := false }

/-- `handleNextStep`: `setForm((prev) => ({ ...prev, step: prev.step + 1 }))`. -/
def handleNextStep (prev : FormState) : FormState :=
  { prev with step := prev.step + 1 }

/-- `handleNextStep` acting on the whole component state
(it only touches the `form` cell). -/
def handleNextStepS (s : AppState) : AppState :=
  { s with form := handleNextStep s.form }

/-- `handleRestart`: `setForm({ step: FIRST_STEP, name: "", email: "", description: "" });
setIsSubmitted(false)`. -/
def handleRestart (_s : AppState) : AppState :=
  { form := initialForm, isSubmitted := false }

/-- `handleSend`: `alert(...); setIsSubmitted(true)` (the alert is pure output). -/
def handleSend (s : AppState) : AppState :=
  { s with isSubmitted := true }

/-- The email step's `onChange`: `setForm((prev) => ({ ...prev, email: value }))`. -/
def setEmail (value : String) (prev : FormState) : FormState :=
  { prev with email := value }

/-- The name step's `onChange`: `setForm((prev) => ({ ...prev, name: value }))`. -/
def setName (value : String) (prev : FormState) : FormState :=
  { prev with name := value }

/-- The description step's `onChange`:
`setForm((prev) => ({ ...prev, description: value }))`. -/
def setDescription (value : String) (prev : FormState) : FormState :=
  { prev with description := value }

/-- JSX guard of the email input: `form.step === FIRST_STEP ? renderInputField(...)`. -/
def emailInputRendered (f : FormState) : Bool :=
  f.step == FIRST_STEP

/-- JSX guard of the name input: `form.step >= 2 && (form.step === 2 ? renderInputField(...))`. -/
def nameInputRendered (f : FormState) : Bool :=
  decide (2 ≤ f.step) && (f.step == 2)

/-- JSX guard of the description input:
`form.step >= 3 && (form.step === 3 ? renderInputField(...))`. -/
def descriptionInputRendered (f : FormState) : Bool :=
  decide (3 ≤ f.step) && (f.step == 3)

/-- Some editable input is rendered (exactly one of the three guards holds). -/
def inputRendered (f : FormState) : Bool :=
  emailInputRendered f || nameInputRendered f || descriptionInputRendered f

/-- JSX guard of the Restart / Send buttons:
`isLastStep && ... {!isSubmitted && <Buttons .../>}` where
`isLastStep = (form.step === LAST_STEP)`. -/
def buttonsRendered (s : AppState) : Bool :=
  (s.form.step == LAST_STEP) && !s.isSubmitted

/-- A user edit of the active field: the rendered input's `onChange`
writes the field belonging to the current step; with no rendered input
there is no editable control, so the event cannot occur and the state
is unchanged. -/
def updateField (s : AppState) (value : String) : AppState :=
  if emailInputRendered s.form then { s with form := setEmail value s.form }
  else if nameInputRendered s.form then { s with form := setName value s.form }
  else if descriptionInputRendered s.form then { s with form := setDescription value s.form }
  else s

/-- The input's `onKeyDown`: `(e) => e.key === "Enter" && handleNextStep()`. -/
def onKeyDownHandler (key : String) (f : FormState) : FormState :=
  if key == "Enter" then handleNextStep f else f

/-- A keydown event delivered to the form: it reaches `onKeyDownHandler`
only when an input is rendered (steps 1 to 3); otherwise nothing is
listening and the state is unchanged. -/
def keydownEvent (key : String) (s : AppState) : AppState :=
  if inputRendered s.form then { s with form := onKeyDownHandler key s.form } else s

/-- Clicking "Send it!": the button exists only while `buttonsRendered`
holds, and then invokes `handleSend`. -/
def clickSend (s : AppState) : AppState :=
  if buttonsRendered s then handleSend s else s

/-- The user-triggerable operations of the component. -/
inductive Op where
  | edit (value : String)
  | keydown (key : String)
  | restart
  | send
deriving DecidableEq, Repr

/-- Apply one operation.  `restart` uses the raw `handleRestart`, which
the code defines unconditionally (spec: "valid from any state"). -/
def applyOp (op : Op) (s : AppState) : AppState :=
  match op with
  | Op.edit v => updateField s v
  | Op.keydown k => keydownEvent k s
  | Op.restart => handleRestart s
  | Op.send => clickSend s

/-- States reachable from the mount state by user-triggerable operations. -/
inductive Reachable : AppState → Prop where
  | init : Reachable initState
  | step (op : Op) {s : AppState} : Reachable s → Reachable (applyOp op s)

/-- The two side effects of `handleClick`. -/
inductive Effect where
  | toggleVisibility
  | focusInput
deriving DecidableEq, Repr

/-- `handleClick`: `handleVisibleSpan(); handleFocusOnInput();` in that order. -/
def handleClickEffects : List Effect :=
  [Effect.toggleVisibility, Effect.focusInput]

/-- Body of the `useEffect`:
`if (form.step === FIRST_STEP) return; handleClick();`. -/
def effectBody (step : Nat) : List Effect :=
  if step = FIRST_STEP then [] else handleClickEffects

/-- React runs an effect with dependency array `[form.step]` once per
render in which the dependency changed; the effects emitted for one
such change are one run of the body at the new value. -/
def effectOnStepChange (prevStep newStep : Nat) : List Effect :=
  if newStep = prevStep then [] else effectBody newStep

/-- React also runs the effect once on mount, with the initial dependency. -/
def effectOnMount (step : Nat) : List Effect :=
  effectBody step

/-- A sequence of edits of the active field (`onChange` fires once per
input event, each reading the previous state). -/
def applyEdits (s : AppState) (vs : List String) : AppState :=
  vs.foldl updateField s

/-- Observation: the field belonging to the current step
(1 = email, 2 = name, 3 = description). -/
def activeField (f : FormState) : String :=
  if f.step = 1 then f.email
  else if f.step = 2 then f.name
  else if f.step = 3 then f.description
  else ""

/-- Observation: the pair of fields not belonging to the current step. -/
def otherFields (f : FormState) : String × String :=
  if f.step = 1 then (f.name, f.description)
  else if f.step = 2 then (f.email, f.description)
  else if f.step = 3 then (f.email, f.name)
  else (f.email, f.name)

/-! ### Helper lemmas (shared, not claim theorems) -/

theorem inputRendered_iff (f : FormState) :
    inputRendered f = true ↔ f.step = 1 ∨ f.step = 2 ∨ f.step = 3 := by
  simp [inputRendered, emailInputRendered, nameInputRendered,
    descriptionInputRendered, FIRST_STEP]
  omega

theorem updateField_form_step (s : AppState) (v : String) :
    (updateField s v).form.step = s.form.step := by
  unfold updateField
  split
  · rfl
  · split
    · rfl
    · split
      · rfl
      · rfl

theorem updateField_isSubmitted (s : AppState) (v : String) :
    (updateField s v).isSubmitted = s.isSubmitted := by
  unfold updateField
  split
  · rfl
  · split
    · rfl
    · split
      · rfl
      · rfl

theorem keydownEvent_isSubmitted (k : String) (s : AppState) :
    (keydownEvent k s).isSubmitted = s.isSubmitted := by
  unfold keydownEvent
  split
  · rfl
  · rfl

theorem clickSend_form (s : AppState) :
    (clickSend s).form = s.form := by
  unfold clickSend
  split
  · rfl
  · rfl

/-! ### Claim theorems -/

/-- C1: for every form state with `1 ≤ step ≤ 3`, `handleNextStep`
yields a form state whose step is exactly `step + 1` (no skip, no wrap). -/
theorem C1_handleNextStep_increments (f : FormState)
    (h1 : 1 ≤ f.step) (h3 : f.step ≤ 3) :
    (handleNextStep f).step = f.step + 1 := rfl

/-- Witness for C1 at the initial form (step 1). -/
theorem C1_witness :
    1 ≤ initialForm.step ∧ initialForm.step ≤ 3 ∧
      (handleNextStep initialForm).step = initialForm.step + 1 :=
  ⟨by decide, by decide,
    C1_handleNextStep_increments initialForm (by decide) (by decide)⟩

/-- C2 counterexample: `handleNextStep` applied to a form state with
`step = 4` does not leave the step at 4 — the raw handler has no guard
and yields step 5. -/
theorem C2_counterexample :
    (handleNextStep
      { step := 4, name := "", email := "", description := "" }).step ≠ 4 := by
  decide

/-- C2 (amended): at step 4 no input field is rendered, so no keydown
event can reach `handleNextStep`; the user-level advance event is a
no-op on any state with `step = 4`. -/
theorem C2_keydown_noop_at_last_step (s : AppState) (key : String)
    (h : s.form.step = 4) :
    keydownEvent key s = s := by
  unfold keydownEvent
  have : inputRendered s.form = false := by
    rw [Bool.eq_false_iff]
    intro hr
    rcases (inputRendered_iff s.form).mp hr with h1 | h2 | h3 <;> omega
  rw [this]
  simp

/-- Witness for C2's amended theorem at a concrete step-4 state. -/
theorem C2_witness :
    keydownEvent "Enter"
      { form := { step := 4, name := "n", email := "e", description := "d" },
        isSubmitted := false } =
      { form := { step := 4, name := "n", email := "e", description := "d" },
        isSubmitted := false } :=
  C2_keydown_noop_at_last_step _ _ rfl

/-- C3: `handleRestart` sends every state (reachable ones included) to
step 1, empty fields, and `isSubmitted = false`. -/
theorem C3_restart_resets (s : AppState) :
    (handleRestart s).form.step = 1 ∧
    (handleRestart s).form.email = "" ∧
    (handleRestart s).form.name = "" ∧
    (handleRestart s).form.description = "" ∧
    (handleRestart s).isSubmitted = false :=
  ⟨rfl, rfl, rfl, rfl, rfl⟩

/-- C4: clicking Send is a no-op unless the step is 4; at step 4 with
`isSubmitted = false` it sets `isSubmitted` and leaves the form (step
and all three fields) unchanged. -/
theorem C4_send_guarded (s : AppState) :
    (s.form.step ≠ 4 → clickSend s = s) ∧
    (s.form.step = 4 → s.isSubmitted = false →
      clickSend s = { form := s.form, isSubmitted := true }) := by
  constructor
  · intro h
    unfold clickSend buttonsRendered
    have : (s.form.step == LAST_STEP) = false := by
      simp [LAST_STEP]
      omega
    rw [this]
    simp
  · intro h4 hsub
    unfold clickSend buttonsRendered
    rw [h4, hsub]
    simp [LAST_STEP, handleSend]

/-- Witness for C4: a no-op at step 3, and a real submit at step 4. -/
theorem C4_witness :
    clickSend
        { form := { step := 3, name := "n", email := "e", description := "d" },
          isSubmitted := false } =
      { form := { step := 3, name := "n", email := "e", description := "d" },
        isSubmitted := false } ∧
    clickSend
        { form := { step := 4, name := "n", email := "e", description := "d" },
          isSubmitted := false } =
      { form := { step := 4, name := "n", email := "e", description := "d" },
        isSubmitted := true } :=
  ⟨(C4_send_guarded _).1 (by decide), (C4_send_guarded _).2 rfl rfl⟩

/-- C9: `handleNextStep` changes only the step — the three field values
and the submission flag are untouched. -/
theorem C9_advance_frame (s : AppState) :
    (handleNextStepS s).form.email = s.form.email ∧
    (handleNextStepS s).form.name = s.form.name ∧
    (handleNextStepS s).form.description = s.form.description ∧
    (handleNextStepS s).isSubmitted = s.isSubmitted :=
  ⟨rfl, rfl, rfl, rfl⟩

/-- C10: the input's keydown handler invokes `handleNextStep` exactly
when the key is the string "Enter"; any other key leaves the form (in
particular the step) unchanged. -/
theorem C10_enter_advances (key : String) (f : FormState) :
    (key = "Enter" → onKeyDownHandler key f = handleNextStep f) ∧
    (key ≠ "Enter" → onKeyDownHandler key f = f ∧
      (onKeyDownHandler key f).step = f.step) := by
  constructor
  · intro h
    unfold onKeyDownHandler
    rw [h]
    simp
  · intro h
    unfold onKeyDownHandler
    have : (key == "Enter") = false := by
      simpa using h
    rw [this]
    simp

/-- Witness for C10 at the keys "Enter" and "a". -/
theorem C10_witness :
    onKeyDownHandler "Enter" initialForm = handleNextStep initialForm ∧
    onKeyDownHandler "a" initialForm = initialForm :=
  ⟨(C10_enter_advances "Enter" initialForm).1 rfl,
    ((C10_enter_advances "a" initialForm).2 (by decide)).1⟩

/-- C7: once `isSubmitted` is true, every operation other than restart
keeps it true; restart always clears it; and restart is the only
operation that can take it from true to false. -/
theorem C7_submitted_until_restart (s : AppState) (op : Op) :
    (op ≠ Op.restart → s.isSubmitted = true → (applyOp op s).isSubmitted = true) ∧
    (applyOp Op.restart s).isSubmitted = false ∧
    (s.isSubmitted = true → (applyOp op s).isSubmitted = false → op = Op.restart) := by
  refine ⟨?_, rfl, ?_⟩
  · intro hne hsub
    cases op with
    | edit v => rw [applyOp, updateField_isSubmitted, hsub]
    | keydown k => rw [applyOp, keydownEvent_isSubmitted, hsub]
    | restart => exact absurd rfl hne
    | send =>
        rw [applyOp]
        unfold clickSend
        split
        · rfl
        · exact hsub
  · intro hsub hfalse
    cases op with
    | edit v => rw [applyOp, updateField_isSubmitted, hsub] at hfalse; exact absurd hfalse (by simp)
    | keydown k => rw [applyOp, keydownEvent_isSubmitted, hsub] at hfalse; exact absurd hfalse (by simp)
    | restart => rfl
    | send =>
        rw [applyOp] at hfalse
        unfold clickSend at hfalse
        split at hfalse
        · exact absurd hfalse (by simp [handleSend])
        · rw [hsub] at hfalse; exact absurd hfalse (by simp)

/-- Witness for C7: after submitting at step 4, an edit keeps the flag
true and a restart clears it. -/
theorem C7_witness :
    (applyOp (Op.edit "x")
      { form := { step := 4, name := "n", email := "e", description := "d" },
        isSubmitted := true }).isSubmitted = true ∧
    (applyOp Op.restart
      { form := { step := 4, name := "n", email := "e", description := "d" },
        isSubmitted := true }).isSubmitted = false :=
  ⟨(C7_submitted_until_restart _ (Op.edit "x")).1 (by decide) rfl,
    (C7_submitted_until_restart _ (Op.edit "x")).2.1⟩

/-- C8: on each change of the step dependency the effect runs once; the
run emits the visibility toggle and the focus move exactly once each
when the new step exceeds 1, and emits nothing when the new step is 1;
the mount run at step 1 also emits nothing. -/
theorem C8_effect_per_change (prevStep newStep : Nat) (hchange : newStep ≠ prevStep) :
    (1 < newStep →
      (effectOnStepChange prevStep newStep).count Effect.toggleVisibility = 1 ∧
      (effectOnStepChange prevStep newStep).count Effect.focusInput = 1) ∧
    (newStep = 1 → effectOnStepChange prevStep newStep = []) ∧
    effectOnMount FIRST_STEP = [] := by
  refine ⟨?_, ?_, rfl⟩
  · intro hgt
    unfold effectOnStepChange effectBody FIRST_STEP
    rw [if_neg hchange, if_neg (by omega : ¬ newStep = 1)]
    constructor
    · rfl
    · rfl
  · intro h1
    unfold effectOnStepChange effectBody FIRST_STEP
    rw [if_neg hchange, if_pos (by omega : newStep = 1)]

/-- Witness for C8 at the transition from step 1 to step 2, and from
step 2 back to step 1 (restart). -/
theorem C8_witness :
    ((effectOnStepChange 1 2).count Effect.toggleVisibility = 1 ∧
      (effectOnStepChange 1 2).count Effect.focusInput = 1) ∧
    effectOnStepChange 2 1 = [] :=
  ⟨(C8_effect_per_change 1 2 (by decide)).1 (by decide),
    (C8_effect_per_change 2 1 (by decide)).2.1 rfl⟩

theorem applyEdits_cons (s : AppState) (a : String) (vs : List String) :
    applyEdits s (a :: vs) = applyEdits (updateField s a) vs := rfl

theorem updateField_active (s : AppState) (v : String)
    (h1 : 1 ≤ s.form.step) (h3 : s.form.step ≤ 3) :
    (updateField s v).form.step = s.form.step ∧
    otherFields (updateField s v).form = otherFields s.form ∧
    activeField (updateField s v).form = v := by
  have hcases : s.form.step = 1 ∨ s.form.step = 2 ∨ s.form.step = 3 := by omega
  rcases hcases with h | h | h <;>
    simp [updateField, emailInputRendered, nameInputRendered, descriptionInputRendered,
      setEmail, setName, setDescription, activeField, otherFields, FIRST_STEP, h]

theorem applyEdits_spec (vs : List String) (s : AppState)
    (h1 : 1 ≤ s.form.step) (h3 : s.form.step ≤ 3) :
    (applyEdits s vs).form.step = s.form.step ∧
    otherFields (applyEdits s vs).form = otherFields s.form ∧
    ∀ v, vs.getLast? = some v → activeField (applyEdits s vs).form = v := by
  induction vs generalizing s with
  | nil =>
      refine ⟨rfl, rfl, fun v hv => ?_⟩
      simp at hv
  | cons a rest ih =>
      have ha := updateField_active s a h1 h3
      have h1a : 1 ≤ (updateField s a).form.step := by rw [ha.1]; exact h1
      have h3a : (updateField s a).form.step ≤ 3 := by rw [ha.1]; exact h3
      have hr := ih (updateField s a) h1a h3a
      refine ⟨?_, ?_, ?_⟩
      · rw [applyEdits_cons, hr.1, ha.1]
      · rw [applyEdits_cons, hr.2.1, ha.2.1]
      · intro v hv
        cases rest with
        | nil =>
            simp at hv
            rw [applyEdits_cons]
            show activeField (updateField s a).form = v
            rw [← hv]
            exact ha.2.2
        | cons b t =>
            rw [List.getLast?_cons_cons] at hv
            rw [applyEdits_cons]
            exact hr.2.2 v hv

/-- C5: while a step with an input is active, a sequence of edits leaves
the active field holding the last written value, and at every point of
the sequence (every prefix) the step and the other two fields are
unchanged. -/
theorem C5_edit_sequence (s : AppState) (vs : List String)
    (h1 : 1 ≤ s.form.step) (h3 : s.form.step ≤ 3) :
    (∀ v, vs.getLast? = some v → activeField (applyEdits s vs).form = v) ∧
    ∀ n, (applyEdits s (vs.take n)).form.step = s.form.step ∧
      otherFields (applyEdits s (vs.take n)).form = otherFields s.form := by
  refine ⟨(applyEdits_spec vs s h1 h3).2.2, fun n => ?_⟩
  have h := applyEdits_spec (vs.take n) s h1 h3
  exact ⟨h.1, h.2.1⟩

/-- Witness for C5 at the mount state with the edit sequence ["a", "b"]. -/
theorem C5_witness :
    activeField (applyEdits initState ["a", "b"]).form = "b" ∧
    ((applyEdits initState (["a", "b"].take 1)).form.step = initState.form.step ∧
      otherFields (applyEdits initState (["a", "b"].take 1)).form = otherFields initState.form) :=
  ⟨(C5_edit_sequence initState ["a", "b"] (by decide) (by decide)).1 "b" rfl,
    (C5_edit_sequence initState ["a", "b"] (by decide) (by decide)).2 1⟩

theorem keydownEvent_step_bounds (k : String) (s : AppState)
    (h1 : 1 ≤ s.form.step) (h4 : s.form.step ≤ 4) :
    1 ≤ (keydownEvent k s).form.step ∧ (keydownEvent k s).form.step ≤ 4 := by
  unfold keydownEvent
  split
  · rename_i hr
    have hm := (inputRendered_iff s.form).mp hr
    show 1 ≤ (onKeyDownHandler k s.form).step ∧ (onKeyDownHandler k s.form).step ≤ 4
    unfold onKeyDownHandler
    split
    · show 1 ≤ s.form.step + 1 ∧ s.form.step + 1 ≤ 4
      omega
    · omega
  · exact ⟨h1, h4⟩

/-- C6: every state reachable from the mount state by user-triggerable
operations (edits, keydowns on a rendered input, restart, send) has its
step in the inclusive range [1, 4]. -/
theorem C6_step_invariant (s : AppState) (h : Reachable s) :
    1 ≤ s.form.step ∧ s.form.step ≤ 4 := by
  induction h with
  | init => exact ⟨Nat.le_refl 1, by decide⟩
  | step op hs ih =>
      cases op with
      | edit v =>
          simp only [applyOp]
          rw [updateField_form_step]
          exact ih
      | keydown k =>
          simp only [applyOp]
          exact keydownEvent_step_bounds k _ ih.1 ih.2
      | restart =>
          simp only [applyOp]
          show 1 ≤ initialForm.step ∧ initialForm.step ≤ 4
          decide
      | send =>
          simp only [applyOp]
          rw [clickSend_form]
          exact ih

/-- Witness for C6 at the mount state. -/
theorem C6_witness :
    1 ≤ initState.form.step ∧ initState.form.step ≤ 4 :=
  C6_step_invariant initState Reachable.init
